import Mathlib

/-!
Shallow embedding of the sqlc-example-api repository.

The repository contains two schema/handler variants:
* variant A: tables `users` / `posts` (migration script), queries in the
  unnamed SQL file (`CreatePost`, `GetPost`, `ListPosts` with LIMIT/OFFSET,
  `UpdatePost` and `DeletePost` without ownership filter), handlers in
  `api/api.go`;
* variant B: tables `user` / `post` (`db/migrations/000001_init_schema.up.sql`),
  queries in `db/query/post.sql` / `db/query/user.sql` (`UpdatePostContent`
  and `DeletePost` filter on `id AND user_id`, `ListAllPosts` is unpaginated),
  handlers in the unnamed Go handler file (`RegisterUser`, `LoginUser`,
  `GetUserByID`, `ListAllUsers`, `CreatePost`, `ListAllPosts`, `GetPostByID`,
  `DeletePost`, `UpdatePost`).

Rows are modelled as structures over `Int` ids and timestamps; a table is a
`List` of rows; each SQL statement is a pure function on that list.  bcrypt
hashing/verification is an external primitive and is passed in explicitly
(an abstract verification function, respectively an explicit hash outcome).
JSON response bodies are modelled as association lists of string key/value
pairs, with numeric JSON values rendered via `toString`.
-/

namespace SqlcApi

/-- Row of table `user` (variant B schema): SERIAL id, unique user_name,
password_hash, created_at timestamp. -/
structure UserRow where
  id : Int
  user_name : String
  password_hash : String
  created_at : Int
deriving Repr, DecidableEq

/-- Row of table `post` (variant B schema): SERIAL id, user_id FK,
title, content, created_at timestamp. -/
structure PostRow where
  id : Int
  user_id : Int
  title : String
  content : String
  created_at : Int
deriving Repr, DecidableEq

/-- Row of table `posts` (variant A schema): SERIAL id, title, content,
user_id FK, created_at and updated_at timestamps. -/
structure PostsRow where
  id : Int
  title : String
  content : String
  user_id : Int
  created_at : Int
  updated_at : Int
deriving Repr, DecidableEq

/-- An HTTP response: status code plus JSON object body rendered as an
association list of key/value pairs. -/
structure HttpResponse where
  status : Nat
  body : List (String × String)
deriving Repr, DecidableEq

/-- The WHERE predicate `"id" = $1 AND "user_id" = $2` shared by the
ownership-checked `UpdatePostContent` and `DeletePost` statements of
`db/query/post.sql`. -/
def postMatches (i u : Int) (p : PostRow) : Bool :=
  p.id == i && p.user_id == u

/-- Embeds `UpdatePostContent` of `db/query/post.sql`:
`UPDATE "post" SET "content" = $3 WHERE "id" = $1 AND "user_id" = $2 RETURNING *`.
Returns the table after the update together with the row returned by the
sqlc `:one` call (`none` models the no-rows error when zero rows matched). -/
def UpdatePostContent (db : List PostRow) (i u : Int) (c : String) :
    List PostRow × Option PostRow :=
  (db.map fun p => if postMatches i u p then { p with content := c } else p,
   ((db.filter (postMatches i u)).map fun p => { p with content := c }).head?)

/-- Embeds `DeletePost` of `db/query/post.sql`:
`DELETE FROM "post" WHERE "id" = $1 AND "user_id" = $2`.  A sqlc `:exec`
statement: it reports no error when zero rows are affected. -/
def DeletePost (db : List PostRow) (i u : Int) : List PostRow :=
  db.filter fun p => !(postMatches i u p)

/-- If no stored row satisfies the id/user_id filter, `UpdatePostContent`
leaves the table unchanged and returns no row. -/
theorem updatePostContent_of_no_match (db : List PostRow) (i u : Int) (c : String)
    (h : ∀ p ∈ db, postMatches i u p = false) :
    UpdatePostContent db i u c = (db, none) := by
  unfold UpdatePostContent
  have hfilter : db.filter (postMatches i u) = [] :=
    List.filter_eq_nil_iff.mpr (by intro a ha; simp [h a ha])
  have hmap : db.map (fun p => if postMatches i u p then { p with content := c } else p) = db := by
    calc db.map (fun p => if postMatches i u p then { p with content := c } else p)
        = db.map id := List.map_congr_left (by intro a ha; simp [h a ha])
      _ = db := List.map_id db
  rw [hfilter, hmap]
  rfl

/-- C1: the ownership-checked `UpdatePostContent` modifies the table only when
some stored row matches both the supplied post id and the supplied user id;
and for a stored post `p` and any supplied user id `u` different from its
owner, the statement matches zero rows, leaves every stored field unchanged,
and returns no row. -/
theorem updatePostContent_ownership (db : List PostRow) (u : Int) (c : String)
    (p : PostRow) (hnodup : (db.map PostRow.id).Nodup) (hp : p ∈ db)
    (hu : u ≠ p.user_id) :
    (∀ (db' : List PostRow) (i' u' : Int) (c' : String),
        (UpdatePostContent db' i' u' c').1 ≠ db' ∨
          (UpdatePostContent db' i' u' c').2 ≠ none →
        ∃ q ∈ db', q.id = i' ∧ q.user_id = u') ∧
    (db.filter (postMatches p.id u)).length = 0 ∧
    (UpdatePostContent db p.id u c).1 = db ∧
    (UpdatePostContent db p.id u c).2 = none := by
  have hnomatch : ∀ q ∈ db, postMatches p.id u q = false := by
    intro q hq
    by_contra hq'
    have hq2 : postMatches p.id u q = true := by
      cases h : postMatches p.id u q with
      | false => exact absurd h hq'
      | true => rfl
    have hparts : q.id = p.id ∧ q.user_id = u := by simpa [postMatches] using hq2
    have hqp : q = p := List.inj_on_of_nodup_map hnodup hq hp hparts.1
    exact hu (by rw [← hparts.2, hqp])
  refine ⟨?_, ?_, ?_, ?_⟩
  · intro db' i' u' c' hne
    by_contra hnoex
    push_neg at hnoex
    have hnm : ∀ q ∈ db', postMatches i' u' q = false := by
      intro q hq
      by_contra hq'
      have hq2 : postMatches i' u' q = true := by
        cases h : postMatches i' u' q with
        | false => exact absurd h hq'
        | true => rfl
      have hparts : q.id = i' ∧ q.user_id = u' := by simpa [postMatches] using hq2
      exact hnoex q hq hparts.1 hparts.2
    have := updatePostContent_of_no_match db' i' u' c' hnm
    rcases hne with hne | hne
    · exact hne (by rw [this])
    · exact hne (by rw [this])
  · have : db.filter (postMatches p.id u) = [] :=
      List.filter_eq_nil_iff.mpr (by intro a ha; simp [hnomatch a ha])
    simp [this]
  · rw [updatePostContent_of_no_match db p.id u c hnomatch]
  · rw [updatePostContent_of_no_match db p.id u c hnomatch]

/-- Witness for `updatePostContent_ownership` at a concrete one-row table. -/
theorem updatePostContent_ownership_witness :
    (([⟨1, 7, "t", "c", 0⟩] : List PostRow).map PostRow.id).Nodup ∧
    (⟨1, 7, "t", "c", 0⟩ : PostRow) ∈ ([⟨1, 7, "t", "c", 0⟩] : List PostRow) ∧
    (9 : Int) ≠ 7 ∧
    ((([⟨1, 7, "t", "c", 0⟩] : List PostRow).filter (postMatches 1 9)).length = 0 ∧
      (UpdatePostContent [⟨1, 7, "t", "c", 0⟩] 1 9 "x").1 = [⟨1, 7, "t", "c", 0⟩] ∧
      (UpdatePostContent [⟨1, 7, "t", "c", 0⟩] 1 9 "x").2 = none) := by
  have h := updatePostContent_ownership [⟨1, 7, "t", "c", 0⟩] 9 "x"
    ⟨1, 7, "t", "c", 0⟩ (by decide) (by decide) (by decide)
  exact ⟨by decide, by decide, by decide, h.2.1, h.2.2.1, h.2.2.2⟩

/-- Embeds the `DeletePost` handler of the variant-B handler file: it parses
the path id and body user_id, runs the `:exec` delete, and — since a pgx
`Exec` reports no error when zero rows are affected — always answers status
200 with message `Post deleted successfully` absent infrastructure failures.
Returns the table after the statement and the response. -/
def DeletePostHandler (db : List PostRow) (i u : Int) :
    List PostRow × HttpResponse :=
  (DeletePost db i u, ⟨200, [("message", "Post deleted successfully")]⟩)

/-- C2 counterexample: with one stored post owned by user 7, a delete of that
post supplied with non-owning user id 9 leaves the table unchanged (zero rows
affected) — but the handler answers status 200 with the success-confirmation
body, not a 404 NotFound. -/
theorem deletePost_nonowner_counterexample :
    (DeletePostHandler [⟨1, 7, "t", "c", 0⟩] 1 9).1 = [⟨1, 7, "t", "c", 0⟩] ∧
    (DeletePostHandler [⟨1, 7, "t", "c", 0⟩] 1 9).2.status = 200 ∧
    (DeletePostHandler [⟨1, 7, "t", "c", 0⟩] 1 9).2.status ≠ 404 ∧
    (DeletePostHandler [⟨1, 7, "t", "c", 0⟩] 1 9).2.body =
      [("message", "Post deleted successfully")] := by
  decide

/-- C2 amended: deleting a stored post with a user id that differs from the
post's owner matches zero rows and leaves the table unchanged (the post stays
in place), but the caller receives the 200 success confirmation — the
`:exec` delete reports no error on zero affected rows, so the handler cannot
distinguish this case and never answers NotFound. -/
theorem deletePost_nonowner_amended (db : List PostRow) (u : Int) (p : PostRow)
    (hnodup : (db.map PostRow.id).Nodup) (hp : p ∈ db) (hu : u ≠ p.user_id) :
    (db.filter (postMatches p.id u)).length = 0 ∧
    (DeletePostHandler db p.id u).1 = db ∧
    p ∈ (DeletePostHandler db p.id u).1 ∧
    (DeletePostHandler db p.id u).2 =
      ⟨200, [("message", "Post deleted successfully")]⟩ := by
  have hnomatch : ∀ q ∈ db, postMatches p.id u q = false := by
    intro q hq
    by_contra hq'
    have hq2 : postMatches p.id u q = true := by
      cases h : postMatches p.id u q with
      | false => exact absurd h hq'
      | true => rfl
    have hparts : q.id = p.id ∧ q.user_id = u := by simpa [postMatches] using hq2
    have hqp : q = p := List.inj_on_of_nodup_map hnodup hq hp hparts.1
    exact hu (by rw [← hparts.2, hqp])
  have hfilter : db.filter (postMatches p.id u) = [] :=
    List.filter_eq_nil_iff.mpr (by intro a ha; simp [hnomatch a ha])
  have hkeep : DeletePost db p.id u = db := by
    unfold DeletePost
    calc db.filter (fun q => !(postMatches p.id u q))
        = db.filter (fun _ => true) :=
          List.filter_congr (by intro a ha; simp [hnomatch a ha])
      _ = db := List.filter_true db
  refine ⟨by simp [hfilter], ?_, ?_, rfl⟩
  · simpa [DeletePostHandler] using hkeep
  · simpa [DeletePostHandler, hkeep] using hp

/-- Witness for `deletePost_nonowner_amended` at a concrete one-row table. -/
theorem deletePost_nonowner_amended_witness :
    (([⟨1, 7, "t", "c", 0⟩] : List PostRow).map PostRow.id).Nodup ∧
    (⟨1, 7, "t", "c", 0⟩ : PostRow) ∈ ([⟨1, 7, "t", "c", 0⟩] : List PostRow) ∧
    (9 : Int) ≠ 7 ∧
    ((([⟨1, 7, "t", "c", 0⟩] : List PostRow).filter (postMatches 1 9)).length = 0 ∧
      (DeletePostHandler [⟨1, 7, "t", "c", 0⟩] 1 9).1 = [⟨1, 7, "t", "c", 0⟩] ∧
      (⟨1, 7, "t", "c", 0⟩ : PostRow) ∈ (DeletePostHandler [⟨1, 7, "t", "c", 0⟩] 1 9).1 ∧
      (DeletePostHandler [⟨1, 7, "t", "c", 0⟩] 1 9).2 =
        ⟨200, [("message", "Post deleted successfully")]⟩) := by
  exact ⟨by decide, by decide, by decide,
    deletePost_nonowner_amended [⟨1, 7, "t", "c", 0⟩] 9 ⟨1, 7, "t", "c", 0⟩
      (by decide) (by decide) (by decide)⟩

/-- The `Error()` text of the pgx no-rows error, the string the handlers
compare against (`err.Error() == "no rows in result set"`). -/
def noRowsMessage : String := "no rows in result set"

/-- Embeds `GetUserByUsername` of `db/query/user.sql`:
`SELECT * FROM "user" WHERE "user_name" = $1 LIMIT 1`. -/
def GetUserByUsername (users : List UserRow) (username : String) : Option UserRow :=
  users.find? fun u => u.user_name == username

/-- Embeds the `LoginUser` handler of the variant-B handler file.  `verify`
stands for the bcrypt compare primitive (`true` = password accepted).
Unknown username: 401 with body text
`"Invalid username or password" + err.Error()` — the code concatenates the
pgx error text onto the message.  Known username, rejected password: 401 with
body text `"Invalid username or password"`.  Success: 200 with id, username
and a message. -/
def LoginUser (users : List UserRow) (verify : String → String → Bool)
    (username password : String) : HttpResponse :=
  match GetUserByUsername users username with
  | none => ⟨401, [("error", "Invalid username or password" ++ noRowsMessage)]⟩
  | some u =>
    if verify password u.password_hash then
      ⟨200, [("id", toString u.id), ("username", u.user_name),
             ("message", "Login successful.")]⟩
    else
      ⟨401, [("error", "Invalid username or password")]⟩

/-- C3: with one stored user "alice" and a verifier that rejects the supplied
password, the unknown-identity failure (login as "bob") and the
wrong-password failure (login as "alice") both carry status 401, yet their
error bodies differ — the unknown-identity body has the pgx error text
`no rows in result set` appended, so the two causes are distinguishable,
contrary to the required indistinguishability. -/
theorem loginUser_failure_bodies_differ :
    (LoginUser [⟨1, "alice", "h1", 0⟩] (fun _ _ => false) "bob" "pw").status = 401 ∧
    (LoginUser [⟨1, "alice", "h1", 0⟩] (fun _ _ => false) "alice" "pw").status = 401 ∧
    (LoginUser [⟨1, "alice", "h1", 0⟩] (fun _ _ => false) "bob" "pw").body =
      [("error", "Invalid username or passwordno rows in result set")] ∧
    (LoginUser [⟨1, "alice", "h1", 0⟩] (fun _ _ => false) "alice" "pw").body =
      [("error", "Invalid username or password")] ∧
    (LoginUser [⟨1, "alice", "h1", 0⟩] (fun _ _ => false) "bob" "pw").body ≠
      (LoginUser [⟨1, "alice", "h1", 0⟩] (fun _ _ => false) "alice" "pw").body := by
  decide

/-- Two-complement wrap-around of Go `int32` arithmetic: normalises an
integer into the interval [-2147483648, 2147483648). -/
def wrap32 (n : Int) : Int :=
  (n + 2147483648) % 4294967296 - 2147483648

/-- Embeds the offset computation of the `listPosts` handler in `api/api.go`:
`Offset: (req.PageID - 1) * req.PageSize`, where both the subtraction and the
multiplication are Go `int32` operations. -/
def listPostsOffset (pageID pageSize : Int) : Int :=
  wrap32 (wrap32 (pageID - 1) * pageSize)

theorem wrap32_eq_self (n : Int) (h1 : -2147483648 ≤ n) (h2 : n < 2147483648) :
    wrap32 n = n := by
  unfold wrap32
  rw [Int.emod_eq_of_lt (by omega) (by omega)]
  omega

/-- C4 counterexample: `pageID = 214748366` and `pageSize = 10` pass the
handler's validation (`pageID ≥ 1`, `5 ≤ pageSize ≤ 20`, both within int32),
but the int32 product `(pageID - 1) * pageSize` wraps around: the offset
passed to the query is -2147483646, not the exact value 2147483650. -/
theorem listPostsOffset_overflow_counterexample :
    1 ≤ (214748366 : Int) ∧ (214748366 : Int) ≤ 2147483647 ∧
    5 ≤ (10 : Int) ∧ (10 : Int) ≤ 20 ∧
    listPostsOffset 214748366 10 = -2147483646 ∧
    ((214748366 : Int) - 1) * 10 = 2147483650 ∧
    listPostsOffset 214748366 10 ≠ ((214748366 : Int) - 1) * 10 := by
  refine ⟨by norm_num, by norm_num, by norm_num, by norm_num, ?_, by norm_num, ?_⟩
  · unfold listPostsOffset wrap32; norm_num
  · unfold listPostsOffset wrap32; norm_num

/-- C4 amended: for every validated list-posts request (`pageID ≥ 1` within
int32, `5 ≤ pageSize ≤ 20`) whose exact product `(pageID - 1) * pageSize`
fits in int32 (at most 2147483647), the offset passed to the query equals the
exact integer `(pageID - 1) * pageSize`; for larger `pageID` the int32
multiplication wraps around, as the counterexample shows. -/
theorem listPostsOffset_exact (pageID pageSize : Int)
    (h1 : 1 ≤ pageID) (h2 : pageID ≤ 2147483647)
    (h3 : 5 ≤ pageSize) (h4 : pageSize ≤ 20)
    (hfit : (pageID - 1) * pageSize ≤ 2147483647) :
    listPostsOffset pageID pageSize = (pageID - 1) * pageSize := by
  unfold listPostsOffset
  have hinner : wrap32 (pageID - 1) = pageID - 1 :=
    wrap32_eq_self _ (by omega) (by omega)
  rw [hinner]
  have hnonneg : 0 ≤ (pageID - 1) * pageSize :=
    mul_nonneg (by omega) (by omega)
  exact wrap32_eq_self _ (by omega) (by omega)

/-- Witness for `listPostsOffset_exact`: page 2 of size 10 starts at offset 10. -/
theorem listPostsOffset_exact_witness :
    1 ≤ (2 : Int) ∧ (2 : Int) ≤ 2147483647 ∧ 5 ≤ (10 : Int) ∧ (10 : Int) ≤ 20 ∧
    ((2 : Int) - 1) * 10 ≤ 2147483647 ∧
    listPostsOffset 2 10 = ((2 : Int) - 1) * 10 := by
  exact ⟨by norm_num, by norm_num, by norm_num, by norm_num, by norm_num,
    listPostsOffset_exact 2 10 (by norm_num) (by norm_num) (by norm_num)
      (by norm_num) (by norm_num)⟩

/-- Sorting of variant-A `posts` rows by `created_at DESC`, as performed by
`ORDER BY created_at DESC`. -/
def sortPostsRowsDesc (db : List PostsRow) : List PostsRow :=
  db.mergeSort fun a b => decide (b.created_at ≤ a.created_at)

/-- Embeds `ListPosts` of the variant-A query file:
`SELECT * FROM posts ORDER BY created_at DESC LIMIT $1 OFFSET $2`.
PostgreSQL rejects a negative LIMIT or OFFSET with an error; otherwise the
sorted rows are windowed by offset/limit. -/
def ListPosts (db : List PostsRow) (limit offset : Int) :
    Except String (List PostsRow) :=
  if limit < 0 ∨ offset < 0 then .error "LIMIT/OFFSET must not be negative"
  else .ok (((sortPostsRowsDesc db).drop offset.toNat).take limit.toNat)

/-- Embeds the `listPosts` handler of `api/api.go`: binding validation
(`page_id` ≥ 1, 5 ≤ `page_size` ≤ 20) answers 400 on failure; then the query
runs with `Limit = pageSize` and `Offset = (pageID-1)*pageSize` (int32); a
query error answers 500, success answers 200 with the rows. -/
def listPostsHandler (db : List PostsRow) (pageID pageSize : Int) :
    Nat × Option (List PostsRow) :=
  if pageID < 1 ∨ pageSize < 5 ∨ pageSize > 20 then (400, none)
  else
    match ListPosts db pageSize (listPostsOffset pageID pageSize) with
    | .ok posts => (200, some posts)
    | .error _ => (500, none)

/-- Embeds `ListAllPosts` of `db/query/post.sql`:
`SELECT * FROM "post" ORDER BY "created_at" DESC` (unpaginated). -/
def ListAllPosts (db : List PostRow) : List PostRow :=
  db.mergeSort fun a b => decide (b.created_at ≤ a.created_at)

/-- A merge sort by a descending integer key yields a list that is pairwise
ordered newest-first on that key. -/
theorem pairwise_mergeSort_key {α : Type} (key : α → Int) (l : List α) :
    (l.mergeSort fun a b => decide (key b ≤ key a)).Pairwise
      (fun a b => key b ≤ key a) := by
  have h : (l.mergeSort fun a b => decide (key b ≤ key a)).Pairwise
      (fun a b => (decide (key b ≤ key a) : Bool) = true) :=
    List.sorted_mergeSort
      (by intro a b c h1 h2; simp_all; omega)
      (by intro a b; simp; omega) l
  exact h.imp (by intro a b hb; simpa using hb)

/-- C5: every list-posts request passing the handler's validation whose
computed offset is at or past the end of the stored post set answers 200
with the empty sequence — not an error. -/
theorem listPosts_out_of_range (db : List PostsRow) (pageID pageSize : Int)
    (h1 : 1 ≤ pageID) (h3 : 5 ≤ pageSize) (h4 : pageSize ≤ 20)
    (hoff : (db.length : Int) ≤ listPostsOffset pageID pageSize) :
    listPostsHandler db pageID pageSize = (200, some []) := by
  have hlen0 : (0 : Int) ≤ (db.length : Int) := Int.natCast_nonneg _
  unfold listPostsHandler
  rw [if_neg (by omega)]
  unfold ListPosts
  rw [if_neg (by omega)]
  have hlen : (sortPostsRowsDesc db).length ≤ (listPostsOffset pageID pageSize).toNat := by
    unfold sortPostsRowsDesc
    rw [List.length_mergeSort]
    omega
  rw [List.drop_eq_nil_of_le hlen]
  simp

/-- Witness for `listPosts_out_of_range`: an empty table, page 1 of size 5. -/
theorem listPosts_out_of_range_witness :
    1 ≤ (1 : Int) ∧ 5 ≤ (5 : Int) ∧ (5 : Int) ≤ 20 ∧
    ((([] : List PostsRow).length : Int) ≤ listPostsOffset 1 5) ∧
    listPostsHandler [] 1 5 = (200, some []) := by
  exact ⟨by norm_num, by norm_num, by norm_num, by decide,
    listPosts_out_of_range [] 1 5 (by norm_num) (by norm_num) (by norm_num)
      (by decide)⟩

/-- C6: the unpaginated `ListAllPosts` returns a permutation of the stored
post set (the full set), ordered by creation time descending; and every
sequence returned by the paginated `ListPosts` query is likewise ordered by
creation time descending. -/
theorem listPosts_sorted_newest_first (dbA : List PostsRow) (dbB : List PostRow)
    (limit offset : Int) :
    (ListAllPosts dbB).Perm dbB ∧
    (ListAllPosts dbB).Pairwise (fun a b => b.created_at ≤ a.created_at) ∧
    (∀ l, ListPosts dbA limit offset = .ok l →
      l.Pairwise (fun a b => b.created_at ≤ a.created_at)) := by
  refine ⟨List.mergeSort_perm dbB _, pairwise_mergeSort_key PostRow.created_at dbB, ?_⟩
  intro l hl
  unfold ListPosts at hl
  by_cases hneg : limit < 0 ∨ offset < 0
  · rw [if_pos hneg] at hl
    exact absurd hl (by simp)
  · rw [if_neg hneg] at hl
    have hl' : ((sortPostsRowsDesc dbA).drop offset.toNat).take limit.toNat = l := by
      simpa using hl
    have hsorted : (sortPostsRowsDesc dbA).Pairwise
        (fun a b => b.created_at ≤ a.created_at) :=
      pairwise_mergeSort_key PostsRow.created_at dbA
    have hsub : l.Sublist (sortPostsRowsDesc dbA) := by
      rw [← hl']
      exact (List.take_sublist _ _).trans (List.drop_sublist _ _)
    exact List.Pairwise.sublist hsub hsorted

unseal List.merge List.mergeSort in
/-- Witness for `listPosts_sorted_newest_first`: a concrete two-row table
whose page of size 5 at offset 0 comes back newest-first. -/
theorem listPosts_sorted_newest_first_witness :
    ListPosts [⟨1, "a", "c", 1, 5, 5⟩, ⟨2, "b", "d", 1, 9, 9⟩] 5 0 =
      .ok [⟨2, "b", "d", 1, 9, 9⟩, ⟨1, "a", "c", 1, 5, 5⟩] ∧
    ([⟨2, "b", "d", 1, 9, 9⟩, ⟨1, "a", "c", 1, 5, 5⟩] : List PostsRow).Pairwise
      (fun a b => b.created_at ≤ a.created_at) :=
  ⟨by rfl,
   (listPosts_sorted_newest_first [⟨1, "a", "c", 1, 5, 5⟩, ⟨2, "b", "d", 1, 9, 9⟩]
      [] 5 0).2.2 [⟨2, "b", "d", 1, 9, 9⟩, ⟨1, "a", "c", 1, 5, 5⟩] (by rfl)⟩

/-- Variant-A `posts` table together with the next SERIAL id. -/
structure PostsDb where
  rows : List PostsRow
  nextId : Int
deriving Repr, DecidableEq

/-- Embeds `CreatePost` of the variant-A query file:
`INSERT INTO posts (title, content, user_id) VALUES ($1, $2, $3) RETURNING *`.
The SERIAL column assigns the next id; `created_at` / `updated_at` default to
`now()`, passed in as `now`. -/
def CreatePost (s : PostsDb) (title content : String) (uid now : Int) :
    PostsDb × PostsRow :=
  let p : PostsRow := ⟨s.nextId, title, content, uid, now, now⟩
  (⟨s.rows ++ [p], s.nextId + 1⟩, p)

/-- Embeds `GetPost` of the variant-A query file:
`SELECT * FROM posts WHERE id = $1 LIMIT 1`; `none` models the pgx no-rows
error that the `getPost` handler maps to 404 NotFound. -/
def GetPost (db : List PostsRow) (i : Int) : Option PostsRow :=
  db.find? fun p => p.id == i

/-- Embeds the variant-A `DeletePost` statement:
`DELETE FROM posts WHERE id = $1` (no ownership filter in this variant). -/
def DeletePostById (db : List PostsRow) (i : Int) : List PostsRow :=
  db.filter fun p => !(p.id == i)

/-- C7: starting from any table in which the next SERIAL id is fresh,
creating a post and fetching it by the returned id yields a row whose title,
content and owner id are exactly what was submitted; after deleting that id,
the same fetch finds no row (the handler's NotFound case). -/
theorem createPost_roundtrip (s : PostsDb) (t c : String) (uid now : Int)
    (hfresh : ∀ p ∈ s.rows, p.id ≠ s.nextId) :
    GetPost (CreatePost s t c uid now).1.rows (CreatePost s t c uid now).2.id =
      some (CreatePost s t c uid now).2 ∧
    (CreatePost s t c uid now).2.title = t ∧
    (CreatePost s t c uid now).2.content = c ∧
    (CreatePost s t c uid now).2.user_id = uid ∧
    GetPost (DeletePostById (CreatePost s t c uid now).1.rows
      (CreatePost s t c uid now).2.id) (CreatePost s t c uid now).2.id = none := by
  have hnone : s.rows.find? (fun p => p.id == s.nextId) = none :=
    List.find?_eq_none.mpr (by intro x hx; simp [hfresh x hx])
  refine ⟨?_, rfl, rfl, rfl, ?_⟩
  · unfold GetPost CreatePost
    rw [List.find?_append, hnone]
    simp
  · unfold GetPost DeletePostById
    apply List.find?_eq_none.mpr
    intro x hx
    have := (List.mem_filter.mp hx).2
    simpa using this

/-- Witness for `createPost_roundtrip` on the empty table with next id 1. -/
theorem createPost_roundtrip_witness :
    (∀ p ∈ (⟨[], 1⟩ : PostsDb).rows, p.id ≠ (⟨[], 1⟩ : PostsDb).nextId) ∧
    (GetPost (CreatePost ⟨[], 1⟩ "t" "c" 7 5).1.rows
        (CreatePost ⟨[], 1⟩ "t" "c" 7 5).2.id =
      some (CreatePost ⟨[], 1⟩ "t" "c" 7 5).2 ∧
    (CreatePost ⟨[], 1⟩ "t" "c" 7 5).2.title = "t" ∧
    (CreatePost ⟨[], 1⟩ "t" "c" 7 5).2.content = "c" ∧
    (CreatePost ⟨[], 1⟩ "t" "c" 7 5).2.user_id = 7 ∧
    GetPost (DeletePostById (CreatePost ⟨[], 1⟩ "t" "c" 7 5).1.rows
      (CreatePost ⟨[], 1⟩ "t" "c" 7 5).2.id)
      (CreatePost ⟨[], 1⟩ "t" "c" 7 5).2.id = none) :=
  ⟨by decide, createPost_roundtrip ⟨[], 1⟩ "t" "c" 7 5 (by decide)⟩

/-- Variant-B `user` table together with the next SERIAL id. -/
structure UsersDb where
  rows : List UserRow
  nextId : Int
deriving Repr, DecidableEq

/-- Outcome of the bcrypt `GenerateFromPassword` primitive, passed into the
handler explicitly: either a produced hash or a failure. -/
inductive HashResult where
  | ok (h : String)
  | failed
deriving Repr, DecidableEq

/-- Embeds `CreateUser` of `db/query/user.sql`:
`INSERT INTO "user" (user_name, password_hash) VALUES ($1, $2)
RETURNING id, user_name, created_at`.  The UNIQUE constraint on `user_name`
makes the insert fail (returning `none`, the store error) when the username
is already present; otherwise the row is appended with the next SERIAL id. -/
def CreateUser (s : UsersDb) (username hash : String) (now : Int) :
    UsersDb × Option UserRow :=
  if s.rows.any (fun u => u.user_name == username) then (s, none)
  else
    let u : UserRow := ⟨s.nextId, username, hash, now⟩
    (⟨s.rows ++ [u], s.nextId + 1⟩, some u)

/-- Embeds the `RegisterUser` handler of the variant-B handler file: a bcrypt
failure answers 500 with body `Failed to hash password`; a store failure
(uniqueness conflict) answers 500 with the fixed body
`Registration failed (Username may be taken)`; success answers 201 with id,
username and a message. -/
def RegisterUser (s : UsersDb) (username : String) (hash : HashResult)
    (now : Int) : UsersDb × HttpResponse :=
  match hash with
  | .failed => (s, ⟨500, [("error", "Failed to hash password")]⟩)
  | .ok h =>
    match CreateUser s username h now with
    | (s', some u) =>
      (s', ⟨201, [("id", toString u.id), ("username", u.user_name),
                  ("message", "Worker registered successfully.")]⟩)
    | (s', none) =>
      (s', ⟨500, [("error", "Registration failed (Username may be taken)")]⟩)

/-- C8 counterexample: both failure causes yield status 500, but the error
body of a username conflict (`Registration failed (Username may be taken)`)
differs from the error body of a hashing failure (`Failed to hash password`),
so the failure response does reveal which cause occurred — the body is not a
fixed generic message independent of the underlying cause. -/
theorem registerUser_bodies_distinguishable :
    (RegisterUser ⟨[⟨1, "alice", "h", 0⟩], 2⟩ "alice" (.ok "h2") 1).2.status = 500 ∧
    (RegisterUser ⟨[⟨1, "alice", "h", 0⟩], 2⟩ "alice" .failed 1).2.status = 500 ∧
    (RegisterUser ⟨[⟨1, "alice", "h", 0⟩], 2⟩ "alice" (.ok "h2") 1).2.body ≠
      (RegisterUser ⟨[⟨1, "alice", "h", 0⟩], 2⟩ "alice" .failed 1).2.body := by
  decide

/-- C8 amended: registering a username twice (with the hash primitive
succeeding) makes the first registration answer 201 and the second fail with
500 and the fixed body `Registration failed (Username may be taken)`, which
does not reveal the specific store error; however a bcrypt hashing failure
produces the distinct body `Failed to hash password`, so the conflict cause
and the hashing cause remain distinguishable to the caller. -/
theorem registerUser_twice_amended (s : UsersDb) (username h1 h2 : String)
    (n1 n2 : Int) (hfresh : ∀ u ∈ s.rows, u.user_name ≠ username) :
    (RegisterUser s username (.ok h1) n1).2.status = 201 ∧
    (RegisterUser (RegisterUser s username (.ok h1) n1).1 username (.ok h2) n2).2 =
      ⟨500, [("error", "Registration failed (Username may be taken)")]⟩ := by
  have hany : s.rows.any (fun u => u.user_name == username) = false := by
    rw [List.any_eq_false]
    intro u hu
    simp [hfresh u hu]
  have hstep : RegisterUser s username (.ok h1) n1 =
      (⟨s.rows ++ [⟨s.nextId, username, h1, n1⟩], s.nextId + 1⟩,
       ⟨201, [("id", toString s.nextId), ("username", username),
              ("message", "Worker registered successfully.")]⟩) := by
    unfold RegisterUser CreateUser
    rw [hany]
    simp
  constructor
  · rw [hstep]
  · rw [hstep]
    have hany2 : (s.rows ++ [(⟨s.nextId, username, h1, n1⟩ : UserRow)]).any
        (fun u => u.user_name == username) = true := by
      refine List.any_eq_true.mpr ⟨⟨s.nextId, username, h1, n1⟩, ?_, by simp⟩
      exact List.mem_append_right _ (List.mem_singleton_self _)
    unfold RegisterUser CreateUser
    rw [hany2]
    simp

/-- Witness for `registerUser_twice_amended` on the empty user table. -/
theorem registerUser_twice_amended_witness :
    (∀ u ∈ (⟨[], 1⟩ : UsersDb).rows, u.user_name ≠ "alice") ∧
    ((RegisterUser ⟨[], 1⟩ "alice" (.ok "ha") 0).2.status = 201 ∧
     (RegisterUser (RegisterUser ⟨[], 1⟩ "alice" (.ok "ha") 0).1 "alice"
        (.ok "hb") 1).2 =
      ⟨500, [("error", "Registration failed (Username may be taken)")]⟩) :=
  ⟨by decide, registerUser_twice_amended ⟨[], 1⟩ "alice" "ha" "hb" 0 1 (by decide)⟩

/-- Full variant-B store: the `user` table (with its SERIAL counter) and the
`post` table (with its SERIAL counter). -/
structure AppState where
  users : UsersDb
  posts : List PostRow
  nextPostId : Int
deriving Repr, DecidableEq

/-- Embeds `CreatePost` of `db/query/post.sql`:
`INSERT INTO "post" (user_id, title, content) VALUES ($1, $2, $3)
RETURNING *`.  The foreign key on `user_id` makes the insert fail when the
owner does not exist; the insert touches only the `post` table. -/
def CreatePostB (s : AppState) (uid : Int) (title content : String)
    (now : Int) : AppState × Option PostRow :=
  if s.users.rows.any (fun u => u.id == uid) then
    let p : PostRow := ⟨s.nextPostId, uid, title, content, now⟩
    ({ s with posts := s.posts ++ [p], nextPostId := s.nextPostId + 1 }, some p)
  else (s, none)

/-- One inbound request on the route set wired by `WireHttpHandler` of the
variant-B handler file: POST /register, POST /login, GET /users,
GET /user/:id, POST /posts, GET /posts, GET /posts/:id, DELETE /posts/:id,
PUT /posts/:id. -/
inductive ApiRequest where
  | register (username : String) (hash : HashResult) (now : Int)
  | login (username password : String)
  | listUsers
  | getUser (i : Int)
  | createPost (uid : Int) (title content : String) (now : Int)
  | listAllPosts
  | getPostById (i : Int)
  | deletePost (i uid : Int)
  | updatePost (i uid : Int) (content : String)
deriving Repr, DecidableEq

/-- Store-state effect of each wired route: only `register` touches the
`user` table (via `CreateUser`); the post routes run the corresponding post
statements; all GET routes and login are read-only. -/
def applyRequest (s : AppState) (r : ApiRequest) : AppState :=
  match r with
  | .register username hash now =>
    { s with users := (RegisterUser s.users username hash now).1 }
  | .login _ _ => s
  | .listUsers => s
  | .getUser _ => s
  | .createPost uid t c now => (CreatePostB s uid t c now).1
  | .listAllPosts => s
  | .getPostById _ => s
  | .deletePost i uid => { s with posts := DeletePost s.posts i uid }
  | .updatePost i uid c => { s with posts := (UpdatePostContent s.posts i uid c).1 }

theorem applyRequest_users_append (s : AppState) (r : ApiRequest) :
    ∃ t, (applyRequest s r).users.rows = s.users.rows ++ t := by
  cases r with
  | register username hash now =>
    cases hash with
    | failed => exact ⟨[], by simp [applyRequest, RegisterUser]⟩
    | ok h =>
      by_cases hc : s.users.rows.any (fun u => u.user_name == username) = true
      · refine ⟨[], ?_⟩
        simp [applyRequest, RegisterUser, CreateUser, hc]
      · refine ⟨[⟨s.users.nextId, username, h, now⟩], ?_⟩
        simp only [Bool.not_eq_true] at hc
        simp [applyRequest, RegisterUser, CreateUser, hc]
  | login username password => exact ⟨[], by simp [applyRequest]⟩
  | listUsers => exact ⟨[], by simp [applyRequest]⟩
  | getUser i => exact ⟨[], by simp [applyRequest]⟩
  | createPost uid t c now =>
    by_cases hc : s.users.rows.any (fun u => u.id == uid) = true
    · exact ⟨[], by simp [applyRequest, CreatePostB, hc]⟩
    · refine ⟨[], ?_⟩
      simp only [Bool.not_eq_true] at hc
      simp [applyRequest, CreatePostB, hc]
  | listAllPosts => exact ⟨[], by simp [applyRequest]⟩
  | getPostById i => exact ⟨[], by simp [applyRequest]⟩
  | deletePost i uid => exact ⟨[], by simp [applyRequest]⟩
  | updatePost i uid c => exact ⟨[], by simp [applyRequest]⟩

/-- C9: over every sequence of requests on the wired HTTP surface, the user
table only ever grows at the end: every user row present before — with its
id, username, stored password hash and creation timestamp — is still present,
unchanged and in place, afterwards; no wired operation updates or deletes a
user row. -/
theorem users_immutable (s : AppState) (rs : List ApiRequest) :
    (∃ t, (rs.foldl applyRequest s).users.rows = s.users.rows ++ t) ∧
    ∀ u ∈ s.users.rows, u ∈ (rs.foldl applyRequest s).users.rows := by
  have hmain : ∀ (rs : List ApiRequest) (s : AppState),
      ∃ t, (rs.foldl applyRequest s).users.rows = s.users.rows ++ t := by
    intro rs
    induction rs with
    | nil => intro s; exact ⟨[], by simp⟩
    | cons r rs ih =>
      intro s
      obtain ⟨t1, ht1⟩ := applyRequest_users_append s r
      obtain ⟨t2, ht2⟩ := ih (applyRequest s r)
      exact ⟨t1 ++ t2, by rw [List.foldl_cons, ht2, ht1, List.append_assoc]⟩
  obtain ⟨t, ht⟩ := hmain rs s
  exact ⟨⟨t, ht⟩, by intro u hu; rw [ht]; exact List.mem_append_left _ hu⟩

/-- Witness for `users_immutable`: a one-user store survives a registration
and a post deletion with the row intact. -/
theorem users_immutable_witness :
    (⟨1, "alice", "h", 0⟩ : UserRow) ∈
      (⟨⟨[⟨1, "alice", "h", 0⟩], 2⟩, [], 1⟩ : AppState).users.rows ∧
    (⟨1, "alice", "h", 0⟩ : UserRow) ∈
      (([.register "bob" (.ok "hb") 3, .deletePost 1 1] : List ApiRequest).foldl
        applyRequest ⟨⟨[⟨1, "alice", "h", 0⟩], 2⟩, [], 1⟩).users.rows :=
  ⟨by decide,
   (users_immutable ⟨⟨[⟨1, "alice", "h", 0⟩], 2⟩, [], 1⟩
      [.register "bob" (.ok "hb") 3, .deletePost 1 1]).2
     ⟨1, "alice", "h", 0⟩ (by decide)⟩

/-- The projection selected by `GetUserByID` and `ListUsers` in
`db/query/user.sql`: `id, user_name, created_at` — no password hash. -/
structure UserSummary where
  id : Int
  user_name : String
  created_at : Int
deriving Repr, DecidableEq

def userSummary (u : UserRow) : UserSummary :=
  ⟨u.id, u.user_name, u.created_at⟩

/-- Embeds `GetUserByID` of `db/query/user.sql`:
`SELECT "id", "user_name", "created_at" FROM "user" WHERE "id" = $1 LIMIT 1`. -/
def GetUserByID (users : List UserRow) (i : Int) : Option UserSummary :=
  (users.find? fun u => u.id == i).map userSummary

/-- Embeds `ListUsers` of `db/query/user.sql`:
`SELECT "id", "user_name", "created_at" FROM "user" ORDER BY "created_at"
DESC`.  The ordering key is part of the projection, so projecting before
sorting models the statement. -/
def ListUsers (users : List UserRow) : List UserSummary :=
  (users.map userSummary).mergeSort fun a b => decide (b.created_at ≤ a.created_at)

/-- Replaces the stored password hash of a row, leaving every other column
unchanged — the variation used to state hash-noninterference. -/
def rehash (f : UserRow → String) (u : UserRow) : UserRow :=
  { u with password_hash := f u }

/-- C10: the responses of the public read surface are independent of the
stored password hashes.  Replacing every stored hash (via any `f`), with a
verifier adjusted so that the accept/reject outcome of password verification
is unchanged, leaves the get-user-by-id payload, the list-users payload and
the whole login response (success included) identical — none of them carries
the hash. -/
theorem responses_hash_independent (users : List UserRow) (f : UserRow → String)
    (verify verify' : String → String → Bool) (i : Int)
    (username password : String)
    (hv : ∀ u ∈ users, verify' password (f u) = verify password u.password_hash) :
    GetUserByID (users.map (rehash f)) i = GetUserByID users i ∧
    ListUsers (users.map (rehash f)) = ListUsers users ∧
    LoginUser (users.map (rehash f)) verify' username password =
      LoginUser users verify username password := by
  have hfind : ∀ (p : UserRow → Bool), (∀ u, p (rehash f u) = p u) →
      (users.map (rehash f)).find? p = (users.find? p).map (rehash f) := by
    intro p hp
    rw [List.find?_map]
    have : (p ∘ rehash f) = p := funext fun u => hp u
    rw [this]
  refine ⟨?_, ?_, ?_⟩
  · unfold GetUserByID
    rw [hfind (fun u => u.id == i) (fun u => rfl)]
    cases h : users.find? fun u => u.id == i with
    | none => simp
    | some u => simp [rehash, userSummary]
  · unfold ListUsers
    have : (users.map (rehash f)).map userSummary = users.map userSummary := by
      rw [List.map_map]
      exact List.map_congr_left fun u _ => rfl
    rw [this]
  · unfold LoginUser GetUserByUsername
    rw [hfind (fun u => u.user_name == username) (fun u => rfl)]
    cases h : users.find? fun u => u.user_name == username with
    | none => simp
    | some u =>
      have hu : u ∈ users := List.mem_of_find?_eq_some h
      simp only [Option.map_some]
      show (if verify' password (rehash f u).password_hash then _ else _) = _
      rw [show (rehash f u).password_hash = f u from rfl, hv u hu]
      cases hver : verify password u.password_hash with
      | false => simp
      | true => simp [rehash]

/-- Witness for `responses_hash_independent`: a one-user store whose hash is
swapped, with verifiers keyed to the respective hashes. -/
theorem responses_hash_independent_witness :
    (∀ u ∈ ([⟨1, "alice", "ha", 0⟩] : List UserRow),
      (fun (_ h : String) => h == "hb") "pw" ((fun _ => "hb") u) =
        (fun (_ h : String) => h == "ha") "pw" u.password_hash) ∧
    (GetUserByID (([⟨1, "alice", "ha", 0⟩] : List UserRow).map (rehash fun _ => "hb")) 1 =
        GetUserByID [⟨1, "alice", "ha", 0⟩] 1 ∧
      ListUsers (([⟨1, "alice", "ha", 0⟩] : List UserRow).map (rehash fun _ => "hb")) =
        ListUsers [⟨1, "alice", "ha", 0⟩] ∧
      LoginUser (([⟨1, "alice", "ha", 0⟩] : List UserRow).map (rehash fun _ => "hb"))
          (fun _ h => h == "hb") "alice" "pw" =
        LoginUser [⟨1, "alice", "ha", 0⟩] (fun _ h => h == "ha") "alice" "pw") :=
  ⟨by decide,
   responses_hash_independent [⟨1, "alice", "ha", 0⟩] (fun _ => "hb")
     (fun _ h => h == "ha") (fun _ h => h == "hb") 1 "alice" "pw" (by decide)⟩

end SqlcApi
